import Mathlib

/-!
Verification of the behavioral recommendation engine and the audio cache of
the `music` repository, against its natural-language specification.

The TypeScript sources are shallowly embedded:

* `src/types.ts`                         → `Track`
* `src/services/userProfile.ts`          → `UserProfile`, `applyTimeDecay`,
  `updateInterestScore`, `recordInteraction`, and the `AudioCacheService`
  methods (`recordPlay`, `isCached`, `getCachedAudioUrl`, `cacheAudio`,
  `ensureCacheSpace`, `getStats`)
* `src/services/recommendationEngine.ts` → `extractTags`,
  `calculateTrackScore`, `getRecommendations`

JavaScript numbers are modelled as exact rationals (`ℚ`), timestamps as `ℕ`
(milliseconds), and JavaScript's stable `Array.prototype.sort` as insertion
sort with the comparator's reflexive closure.  `Math.random()`-driven index
choices are modelled by an explicit stream `rand : ℕ → ℕ` reduced modulo the
pool length, and IndexedDB availability / request failure by explicit
booleans, so every asynchronous failure path of the cache service is a plain
function argument.
-/

namespace Music

/-! ## Data model (src/types.ts, src/services/userProfile.ts) -/

/-- Embeds `Track` from `src/types.ts`. -/
structure Track where
  id : String
  title : String
  artist : String
  albumArt : String
  genre : String
  duration : String
  audioUrl : String
  videoId : Option String := none
  isPlaying : Option Bool := none
  lyrics : Option (List String) := none
deriving DecidableEq, Repr

/-- One value of the `InterestMap` record: `{ score, lastUpdated }`. -/
structure InterestEntry where
  score : ℚ
  lastUpdated : Nat
deriving DecidableEq, Repr

/-- Embeds `InterestMap`: a JS object, i.e. an insertion-ordered map from tag to
entry.  Keys are unique in every state the code constructs. -/
abbrev InterestMap := List (String × InterestEntry)

/-- Embeds `ListenHistory` per-song record. -/
structure ListenHistory where
  songId : String
  playCount : Nat
  lastPlayed : Nat
  totalTimeListened : ℚ
deriving DecidableEq, Repr

/-- The `action` field of `SongInteraction`. -/
inductive SongAction
  | like | dislike | save | play | skip | complete
deriving DecidableEq, Repr

/-- Embeds `SongInteraction` from `src/services/userProfile.ts`. -/
structure SongInteraction where
  songId : String
  timestamp : Nat
  action : SongAction
  completionRate : Option ℚ
  tags : List String
deriving DecidableEq, Repr

/-- Embeds `UserProfile` from `src/services/userProfile.ts`. -/
structure UserProfile where
  id : String
  interestMap : InterestMap
  listenHistory : List (String × ListenHistory)
  interactions : List SongInteraction
  likedSongs : List String
  dislikedSongs : List String
  savedSongs : List String
  createdAt : Nat
  lastActive : Nat
deriving DecidableEq, Repr

/-! ## JS helpers

JS object property assignment `obj[k] = v` on an insertion-ordered map:
overwrite in place when the key is present, append otherwise. -/

/-- Embeds `m[k] = v` on a JS object viewed as an association list. -/
def objSet {β : Type} (m : List (String × β)) (k : String) (v : β) :
    List (String × β) :=
  if (m.lookup k).isSome then
    m.map (fun p => if p.1 = k then (k, v) else p)
  else
    m ++ [(k, v)]

/-- Embeds `String.prototype.trim` (ASCII whitespace suffices for the tag strings
the code handles). -/
def jsTrim (s : String) : String :=
  ⟨(((s.data.dropWhile Char.isWhitespace).reverse.dropWhile
      Char.isWhitespace).reverse)⟩

/-- Embeds `String.prototype.toLowerCase`, character-wise. -/
def jsToLower (s : String) : String := ⟨s.data.map Char.toLower⟩

/-- Substring test on character lists (`String.prototype.includes`). -/
def charSub : List Char → List Char → Bool
  | _, [] => true
  | [], _ :: _ => false
  | c :: t, pat => pat.isPrefixOf (c :: t) || charSub t pat

/-! ## Interest model (src/services/userProfile.ts) -/

/-- The `POINTS` table keys. -/
inductive ScoreAction
  | like | dislike | save | complete_high | skip_early | relisten
deriving DecidableEq, Repr

/-- The `POINTS` configuration object. -/
def pointsFor : ScoreAction → ℚ
  | .like => 5
  | .dislike => -10
  | .save => 3
  | .complete_high => 2
  | .skip_early => -3
  | .relisten => 4

/-- Embeds `DECAY_RATE = 0.9`. -/
def DECAY_RATE : ℚ := 9 / 10

/-- Embeds `DECAY_INTERVAL_MS = 7 * 24 * 60 * 60 * 1000`. -/
def DECAY_INTERVAL_MS : Nat := 7 * 24 * 60 * 60 * 1000

/-- Embeds `AVAILABLE_TAGS`. -/
def AVAILABLE_TAGS : List String :=
  ["Lofi", "Cinematic", "Electronic", "Hip-Hop", "Rock", "Pop",
   "Jazz", "Classical", "R&B", "Indie", "Metal", "Country",
   "Synthwave", "Phonk", "Techno", "Ambient", "Focus", "Workout",
   "Relax", "Party", "Sad", "Happy", "Energetic", "Chill"]

/-- Decay of a single interest entry, as performed by `applyTimeDecay` at
time `now`.  (In JS a `lastUpdated` in the future yields a negative period
count and no decay; `ℕ`-truncation gives the same observable result.) -/
def decayEntry (now : Nat) (e : InterestEntry) : InterestEntry :=
  let decayPeriods := (now - e.lastUpdated) / DECAY_INTERVAL_MS
  if 0 < decayPeriods then
    { score := e.score * DECAY_RATE ^ decayPeriods, lastUpdated := now }
  else e

/-- Embeds `applyTimeDecay` (src/services/userProfile.ts:110-123). -/
def applyTimeDecay (p : UserProfile) (now : Nat) : UserProfile :=
  { p with interestMap := p.interestMap.map (fun q => (q.1, decayEntry now q.2)) }

/-- The per-tag body of `updateInterestScore`: create at 0 if absent, then
add the points and stamp `lastUpdated`. -/
def bumpTag (m : InterestMap) (tag : String) (points : ℚ) (now : Nat) :
    InterestMap :=
  let m' := if (m.lookup tag).isSome then m else m ++ [(tag, ⟨0, now⟩)]
  m'.map (fun p =>
    if p.1 = tag then (p.1, ⟨p.2.score + points, now⟩) else p)

/-- Embeds `updateInterestScore` (src/services/userProfile.ts:128-157); the final
`saveUserProfile` stamps `lastActive`. -/
def updateInterestScore (p : UserProfile) (songTags : List String)
    (action : ScoreAction) (now : Nat) : UserProfile :=
  let points := pointsFor action
  { p with
    interestMap :=
      songTags.foldl (fun m tag => bumpTag m (jsTrim tag) points now)
        p.interestMap,
    lastActive := now }

/-! ## Interaction recorder (src/services/userProfile.ts:162-240) -/

/-- Appending the interaction and truncating the log to the last 500. -/
def appendInteraction (p : UserProfile) (e : SongInteraction) : UserProfile :=
  let interactions := p.interactions ++ [e]
  { p with
    interactions :=
      if 500 < interactions.length then
        interactions.drop (interactions.length - 500)
      else interactions }

/-- The `switch (action)` block updating the membership lists and the
interest map. -/
def applyActionLists (p : UserProfile) (songId : String) (action : SongAction)
    (tags : List String) (completionRate : Option ℚ) (now : Nat) :
    UserProfile :=
  match action with
  | .like =>
      let p :=
        if songId ∈ p.likedSongs then p
        else
          { p with
            likedSongs := p.likedSongs ++ [songId],
            dislikedSongs := p.dislikedSongs.filter (fun i => i ≠ songId) }
      updateInterestScore p tags .like now
  | .dislike =>
      let p :=
        if songId ∈ p.dislikedSongs then p
        else
          { p with
            dislikedSongs := p.dislikedSongs ++ [songId],
            likedSongs := p.likedSongs.filter (fun i => i ≠ songId) }
      updateInterestScore p tags .dislike now
  | .save =>
      let p :=
        if songId ∈ p.savedSongs then p
        else { p with savedSongs := p.savedSongs ++ [songId] }
      updateInterestScore p tags .save now
  | .complete =>
      match completionRate with
      | some r =>
          if 4 / 5 < r then updateInterestScore p tags .complete_high now
          else p
      | none => p
  | .skip => updateInterestScore p tags .skip_early now
  | .play => p

/-- The listen-history block at the end of `recordInteraction`: the entry is
created (with `playCount = 0`) for *every* action kind, and bumped on
`play`/`complete`. -/
def touchListenHistory (p : UserProfile) (songId : String)
    (action : SongAction) (tags : List String) (now : Nat) : UserProfile :=
  let p :=
    if (p.listenHistory.lookup songId).isSome then p
    else
      { p with
        listenHistory :=
          p.listenHistory ++ [(songId, ⟨songId, 0, now, 0⟩)] }
  if action = .play ∨ action = .complete then
    let h := (p.listenHistory.lookup songId).getD ⟨songId, 0, now, 0⟩
    let isRelisten := now - h.lastPlayed < 24 * 60 * 60 * 1000
    let p :=
      if isRelisten ∧ 1 < h.playCount then
        updateInterestScore p tags .relisten now
      else p
    { p with
      listenHistory :=
        objSet p.listenHistory songId
          ⟨h.songId, h.playCount + 1, now, h.totalTimeListened⟩ }
  else p

/-- Embeds `recordInteraction` (src/services/userProfile.ts:162-240); the trailing
`saveUserProfile` stamps `lastActive`. -/
def recordInteraction (p : UserProfile) (songId : String)
    (action : SongAction) (tags : List String) (completionRate : Option ℚ)
    (now : Nat) : UserProfile :=
  let p := appendInteraction p ⟨songId, now, action, completionRate, tags⟩
  let p := applyActionLists p songId action tags completionRate now
  let p := touchListenHistory p songId action tags now
  { p with lastActive := now }

/-- The fresh profile created by `loadUserProfile` when nothing is stored. -/
def freshProfile (now : Nat) : UserProfile where
  id := "user_" ++ toString now
  interestMap := AVAILABLE_TAGS.map (fun t => (t, ⟨0, now⟩))
  listenHistory := []
  interactions := []
  likedSongs := []
  dislikedSongs := []
  savedSongs := []
  createdAt := now
  lastActive := now

/-- One external call to `recordInteraction`. -/
structure Ev where
  songId : String
  action : SongAction
  tags : List String
  completionRate : Option ℚ
  now : Nat
deriving DecidableEq, Repr

/-- Replay a sequence of `recordInteraction` calls. -/
def replay (p : UserProfile) : List Ev → UserProfile
  | [] => p
  | e :: es =>
      replay (recordInteraction p e.songId e.action e.tags e.completionRate
        e.now) es

/-! ## Recommendation engine (src/services/recommendationEngine.ts) -/

/-- A scored catalog entry (`ScoredTrack`). -/
structure ScoredTrack where
  track : Track
  score : ℚ
  matchedTags : List String
  isDiscovery : Bool
deriving DecidableEq, Repr

/-- Embeds `SERENDIPITY_RATIO = 0.1`. -/
def SERENDIPITY_RATIO : ℚ := 1 / 10

/-- The static `genreToMoods` table. -/
def genreToMoods : List (String × List String) :=
  [("Synthwave", ["Electronic", "Energetic", "Cinematic"]),
   ("Phonk", ["Hip-Hop", "Energetic", "Party"]),
   ("Lo-fi", ["Lofi", "Chill", "Relax", "Focus"]),
   ("Jazz", ["Chill", "Relax", "Classical"]),
   ("Techno", ["Electronic", "Energetic", "Party", "Workout"]),
   ("Deep Tech", ["Electronic", "Focus", "Chill"]),
   ("Hyperpop", ["Pop", "Energetic", "Electronic"])]

/-- The `moodKeywords` table, in `Object.entries` order. -/
def moodKeywords : List (String × List String) :=
  [("chill", ["Chill", "Relax"]),
   ("relax", ["Relax", "Chill", "Ambient"]),
   ("energy", ["Energetic", "Workout"]),
   ("focus", ["Focus", "Ambient"]),
   ("sad", ["Sad", "Chill"]),
   ("happy", ["Happy", "Energetic"]),
   ("night", ["Chill", "Ambient"]),
   ("dream", ["Ambient", "Chill", "Cinematic"]),
   ("dark", ["Cinematic", "Ambient"]),
   ("cyber", ["Electronic", "Synthwave"]),
   ("neon", ["Synthwave", "Electronic"])]

/-- Embeds `[...new Set(tags)]`: drop duplicates keeping first occurrences. -/
def jsSetDedup : List String → List String → List String
  | [], _ => []
  | a :: l, seen => if a ∈ seen then jsSetDedup l seen
                    else a :: jsSetDedup l (a :: seen)

/-- Embeds `extractTags` (src/services/recommendationEngine.ts:27-75).
`if (track.genre)` is genre-string truthiness, i.e. `genre ≠ ""`. -/
def extractTags (track : Track) : List String :=
  let tags : List String := []
  let tags :=
    if track.genre ≠ "" then
      let normalizedGenre := jsTrim track.genre
      let tags := tags ++ [normalizedGenre]
      match genreToMoods.lookup normalizedGenre with
      | some moods => tags ++ moods
      | none => tags
    else tags
  let title := jsToLower track.title
  let tags := moodKeywords.foldl
    (fun acc kw => if charSub title.data kw.1.data then acc ++ kw.2 else acc)
    tags
  jsSetDedup tags []

/-- Embeds `calculateTrackScore` (src/services/recommendationEngine.ts:80-111);
returns `(score, matchedTags)`. -/
def calculateTrackScore (track : Track) (profile : UserProfile) :
    ℚ × List String :=
  let trackTags := extractTags track
  let acc := trackTags.foldl
    (fun (acc : ℚ × List String) tag =>
      match profile.interestMap.lookup tag with
      | some e =>
          (acc.1 + e.score, if 0 < e.score then acc.2 ++ [tag] else acc.2)
      | none => acc)
    (0, [])
  let score := acc.1
  let score :=
    if (profile.listenHistory.lookup track.id).isSome then score
    else score + 1
  let score := if track.id ∈ profile.dislikedSongs then score - 100 else score
  let score := if track.id ∈ profile.likedSongs then score + 2 else score
  (score, acc.2)

/-- Embeds `allTracks.map(track => ({track, score, matchedTags, isDiscovery: false}))`. -/
def scoreTrack (profile : UserProfile) (track : Track) : ScoredTrack :=
  { track := track
    score := (calculateTrackScore track profile).1
    matchedTags := (calculateTrackScore track profile).2
    isDiscovery := false }

/-- Embeds `arr.slice(0, c)` where `c` may be a negative JS number. -/
def jsSliceTo {α : Type} (l : List α) (c : Int) : List α :=
  if c < 0 then l.take ((l.length + c).toNat) else l.take c.toNat

/-- Embeds `arr.splice(pos, 0, a)` insertion, with JS clamping of `pos` (negative
positions count from the end, positions past the end append). -/
def jsSpliceInsert {α : Type} (l : List α) (pos : Int) (a : α) : List α :=
  let p : Nat :=
    if pos < 0 then (max ((l.length : Int) + pos) 0).toNat
    else min pos.toNat l.length
  l.insertIdx p a

/-- The discovery-selection loop (src/services/recommendationEngine.ts:
152-158): at step `i`, while picks remain and the pool is non-empty, remove
the element at index `rand i % pool.length` from the pool, mark it
`isDiscovery`, and append it to the picks.  Returns (picks, leftover pool).
`rand i % pool.length` ranges over exactly the indices
`Math.floor(Math.random() * pool.length)` can produce. -/
def pickDiscoveries (rand : Nat → Nat) :
    Nat → Nat → List ScoredTrack → List ScoredTrack × List ScoredTrack
  | _, 0, pool => ([], pool)
  | _, _ + 1, [] => ([], [])
  | i, remaining + 1, x :: xs =>
      let pool := x :: xs
      let idx := rand i % pool.length
      let d := pool.getD idx x
      let rest := pool.eraseIdx idx
      let out := pickDiscoveries rand (i + 1) remaining rest
      ({ d with isDiscovery := true } :: out.1, out.2)

/-- The interleaving `forEach` (src/services/recommendationEngine.ts:
161-169): insert the `i`-th discovery pick at
`min (3 + i * floor (contentCount / discoveryCount)) currentLength`. -/
def interleaveDiscoveries (content : List ScoredTrack)
    (ds : List ScoredTrack) (contentCount : Int) (discoveryCount : Nat) :
    List ScoredTrack :=
  ds.enum.foldl
    (fun acc q =>
      jsSpliceInsert acc
        (min ((3 : Int) + q.1 * Int.fdiv contentCount discoveryCount)
          (acc.length : Int))
        q.2)
    content

/-- Embeds `getRecommendations` (src/services/recommendationEngine.ts:117-172).
`profile` is the optional argument; `loadedProfile` stands for the value
`loadUserProfile()` would return when the argument is omitted.  Note that
the discovery pool's dislike filter reads `profile?.dislikedSongs` — the raw
optional argument — so it filters nothing when the argument is omitted. -/
def getRecommendations (allTracks : List Track)
    (profile : Option UserProfile) (loadedProfile : UserProfile)
    (limit : Nat) (rand : Nat → Nat) : List ScoredTrack :=
  let userProfile := profile.getD loadedProfile
  let scoredTracks := allTracks.map (scoreTrack userProfile)
  let sorted :=
    List.insertionSort (fun a b : ScoredTrack => b.score ≤ a.score)
      scoredTracks
  let discoveryCount := max 1 (((limit : ℚ) * SERENDIPITY_RATIO).floor).toNat
  let contentCount : Int := (limit : Int) - (discoveryCount : Int)
  let contentRecommendations :=
    jsSliceTo (sorted.filter (fun st => (-50 : ℚ) < st.score)) contentCount
  let discoveryPool :=
    (sorted.filter (fun st =>
      !(match profile with
        | some p => p.dislikedSongs.contains st.track.id
        | none => false))).filter
      (fun st =>
        !(contentRecommendations.any (fun cr => cr.track.id == st.track.id)))
  let discoveryRecommendations :=
    (pickDiscoveries rand 0 discoveryCount discoveryPool).1
  let finalRecommendations :=
    interleaveDiscoveries contentRecommendations discoveryRecommendations
      contentCount discoveryCount
  finalRecommendations.take limit

/-! ## Audio cache service (src/services/userProfile.ts:294-641)

IndexedDB is modelled as in-memory lists of records.  `dbAvailable = false`
models a database that failed to open (`this.db === null`); `reqOk = false`
models an individual store request firing `onerror`.  Audio blobs are
abstracted to their byte size (`size`), which is the only attribute of the
blob the service's bookkeeping reads. -/

/-- Embeds `CACHE_THRESHOLD = 3`. -/
def CACHE_THRESHOLD : Nat := 3

/-- Embeds `MAX_CACHE_SIZE_MB = 500`. -/
def MAX_CACHE_SIZE_MB : Nat := 500

/-- Embeds `MAX_CACHE_ITEMS = 50`. -/
def MAX_CACHE_ITEMS : Nat := 50

/-- Embeds `CachedAudio` record (blob abstracted to its size). -/
structure CachedAudio where
  id : String
  size : Nat
  mimeType : String
  cachedAt : Nat
  lastAccessed : Nat
  title : String
  artist : String
deriving DecidableEq, Repr

/-- Embeds `PlayCount` record. -/
structure PlayCount where
  id : String
  count : Nat
  lastPlayed : Nat
  audioUrl : String
  title : String
  artist : String
deriving DecidableEq, Repr

/-- Embeds `store.put` on the play-count store (upsert keyed by `id`). -/
def putPlay (store : List PlayCount) (d : PlayCount) : List PlayCount :=
  if store.any (fun e => e.id == d.id) then
    store.map (fun e => if e.id == d.id then d else e)
  else store ++ [d]

/-- The play count currently stored for `id` (`existing?.count || 0`). -/
def getCount (store : List PlayCount) (id : String) : Nat :=
  match store.find? (fun e => e.id == id) with
  | some e => e.count
  | none => 0

/-- Embeds `recordPlay` (src/services/userProfile.ts:379-414).  Returns the
resolved `{shouldCache, playCount}` and the updated play-count store. -/
def recordPlay (dbAvailable reqOk : Bool) (store : List PlayCount)
    (trackId audioUrl title artist : String) (now : Nat) :
    (Bool × Nat) × List PlayCount :=
  if !dbAvailable then ((false, 0), store)
  else if !reqOk then ((false, 0), store)
  else
    let newCount := getCount store trackId + 1
    let playData : PlayCount := ⟨trackId, newCount, now, audioUrl, title, artist⟩
    ((decide (CACHE_THRESHOLD ≤ newCount), newCount), putPlay store playData)

/-- Pure content test of the audio store. -/
def isCachedPure (store : List CachedAudio) (trackId : String) : Bool :=
  store.any (fun e => e.id == trackId)

/-- Embeds `isCached` (src/services/userProfile.ts:419-436). -/
def isCached (dbAvailable reqOk : Bool) (store : List CachedAudio)
    (trackId : String) : Bool :=
  if !dbAvailable then false
  else if !reqOk then false
  else isCachedPure store trackId

/-- Embeds `store.put` on the audio store (upsert keyed by `id`). -/
def putAudio (store : List CachedAudio) (d : CachedAudio) :
    List CachedAudio :=
  if store.any (fun e => e.id == d.id) then
    store.map (fun e => if e.id == d.id then d else e)
  else store ++ [d]

/-- Embeds `getCachedAudioUrl` (src/services/userProfile.ts:441-470).  The object
URL handle is abstracted to `"blob:" ++ id`; on a hit the entry's
`lastAccessed` is touched. -/
def getCachedAudioUrl (dbAvailable reqOk : Bool) (store : List CachedAudio)
    (trackId : String) (now : Nat) : Option String × List CachedAudio :=
  if !dbAvailable then (none, store)
  else if !reqOk then (none, store)
  else
    match store.find? (fun e => e.id == trackId) with
    | some cached =>
        (some ("blob:" ++ cached.id),
         putAudio store { cached with lastAccessed := now })
    | none => (none, store)

/-- Total bytes held by the enumerated entries. -/
def cacheSizeSum (l : List CachedAudio) : Nat := (l.map (·.size)).sum

/-- Ascending stable sort by `lastAccessed`
(`items.sort((a, b) => a.lastAccessed - b.lastAccessed)`). -/
def sortByLastAccessed (l : List CachedAudio) : List CachedAudio :=
  List.insertionSort (fun a b : CachedAudio => a.lastAccessed ≤ b.lastAccessed) l

/-- The `while` loop of `ensureCacheSpace`: shift the oldest entry while the
byte or count budget is exceeded and entries remain. -/
def evictLoop : List CachedAudio → List CachedAudio
  | [] => []
  | x :: xs =>
      if MAX_CACHE_SIZE_MB * 1024 * 1024 < cacheSizeSum (x :: xs)
          ∨ MAX_CACHE_ITEMS < (x :: xs).length then
        evictLoop xs
      else x :: xs

/-- Embeds `ensureCacheSpace` (src/services/userProfile.ts:542-584). -/
def ensureCacheSpace (store : List CachedAudio) : List CachedAudio :=
  evictLoop (sortByLastAccessed store)

/-- Outcome of `fetch(audioUrl)` followed by `response.blob()`: failure
(network error or `!response.ok`) or a blob with a size and a MIME type. -/
inductive FetchResult
  | fail
  | ok (size : Nat) (mimeType : String)
deriving DecidableEq, Repr

/-- Embeds `cacheAudio` (src/services/userProfile.ts:475-537).  Returns the
resolved boolean and the updated audio store.  The eviction pre-check runs
*before* the fetch, so it precedes the 50 MB size check. -/
def cacheAudio (dbAvailable : Bool) (store : List CachedAudio)
    (trackId audioUrl title artist : String) (fetch : FetchResult)
    (reqOk : Bool) (now : Nat) : Bool × List CachedAudio :=
  if !dbAvailable then (false, store)
  else if isCachedPure store trackId then (true, store)
  else
    let store1 := ensureCacheSpace store
    match fetch with
    | .fail => (false, store1)
    | .ok size mimeType =>
        if 50 * 1024 * 1024 < size then (false, store1)
        else
          let cachedAudio : CachedAudio :=
            ⟨trackId, size, if mimeType = "" then "audio/mpeg" else mimeType,
             now, now, title, artist⟩
          if reqOk then (true, putAudio store1 cachedAudio)
          else (false, store1)

/-- The record resolved by `getStats`. -/
structure CacheStats where
  itemCount : Nat
  totalSizeMB : ℚ
  items : List (String × String × ℚ)
deriving DecidableEq, Repr

/-- Embeds `Math.round(x * 100) / 100` (JS `Math.round` is floor of `x + 1/2`). -/
def roundTo2 (x : ℚ) : ℚ := ((x * 100 + 1 / 2).floor : ℚ) / 100

/-- Embeds `getStats` (src/services/userProfile.ts:589-617). -/
def getStats (dbAvailable reqOk : Bool) (store : List CachedAudio) :
    CacheStats :=
  if !dbAvailable then ⟨0, 0, []⟩
  else if !reqOk then ⟨0, 0, []⟩
  else
    ⟨store.length,
     roundTo2 ((cacheSizeSum store : ℚ) / 1024 / 1024),
     store.map (fun i =>
       (i.title, i.artist, roundTo2 ((i.size : ℚ) / 1024 / 1024)))⟩

/-! ## Concrete instances used by counterexamples and witnesses -/

/-- A track whose only tags come from the `Synthwave` genre row. -/
def trackX : Track :=
  { id := "x", title := "zzz", artist := "", albumArt := "",
    genre := "Synthwave", duration := "", audioUrl := "" }

/-- A profile that dislikes `"x"` but has a strong interest in its genre. -/
def profileHigh : UserProfile :=
  { id := "u", interestMap := [("Synthwave", ⟨100, 0⟩)], listenHistory := [],
    interactions := [], likedSongs := [], dislikedSongs := ["x"],
    savedSongs := [], createdAt := 0, lastActive := 0 }

/-- A profile that dislikes `"x"` and has no interests. -/
def profileLow : UserProfile :=
  { id := "u", interestMap := [], listenHistory := [],
    interactions := [], likedSongs := [], dislikedSongs := ["x"],
    savedSongs := [], createdAt := 0, lastActive := 0 }

/-- A tagless track with id `"s"`. -/
def trackS : Track :=
  { id := "s", title := "zzz", artist := "", albumArt := "",
    genre := "", duration := "", audioUrl := "" }

/-- Twenty tagless tracks with distinct ids. -/
def catalog20 : List Track := (List.range 20).map (fun n =>
  { id := "t" ++ toString n, title := "q", artist := "", albumArt := "",
    genre := "", duration := "", audioUrl := "" })

/-- Eleven 50 MB cache entries: 550 MB total, over the 500 MB budget
(reachable, since eviction runs before — not after — each admission). -/
def bigStore : List CachedAudio := (List.range 11).map (fun n =>
  ⟨"c" ++ toString n, 50 * 1024 * 1024, "", 0, n, "", ""⟩)

/-- A profile holding one interest entry, for the decay witness. -/
def profileDecay : UserProfile :=
  { id := "u", interestMap := [("Lofi", ⟨1, 0⟩)], listenHistory := [],
    interactions := [], likedSongs := [], dislikedSongs := [],
    savedSongs := [], createdAt := 0, lastActive := 0 }

/-! ## C3: interest-score time decay -/

/-- C3.  Applying decay at load time multiplies an entry's score by
`0.9 ^ floor(elapsed / 7 days)` and resets `lastUpdated` to `now` when at
least one full period has elapsed, and leaves the entry unchanged
otherwise; in particular an entry last updated exactly 14 days ago ends at
`S * 0.9²`, and one last updated exactly 6 days ago is unchanged. -/
theorem applyTimeDecay_spec (p : UserProfile) (now : Nat) (tag : String)
    (S : ℚ) (lu : Nat) (hmem : (tag, (⟨S, lu⟩ : InterestEntry)) ∈ p.interestMap) :
    (0 < (now - lu) / DECAY_INTERVAL_MS →
      (tag, (⟨S * DECAY_RATE ^ ((now - lu) / DECAY_INTERVAL_MS), now⟩ : InterestEntry))
        ∈ (applyTimeDecay p now).interestMap) ∧
    ((now - lu) / DECAY_INTERVAL_MS = 0 →
      (tag, (⟨S, lu⟩ : InterestEntry)) ∈ (applyTimeDecay p now).interestMap) ∧
    (now = lu + 14 * (24 * 60 * 60 * 1000) →
      (tag, (⟨S * DECAY_RATE ^ 2, now⟩ : InterestEntry))
        ∈ (applyTimeDecay p now).interestMap) ∧
    (now = lu + 6 * (24 * 60 * 60 * 1000) →
      (tag, (⟨S, lu⟩ : InterestEntry)) ∈ (applyTimeDecay p now).interestMap) := by
  have himg : (tag, decayEntry now ⟨S, lu⟩) ∈ (applyTimeDecay p now).interestMap := by
    simpa [applyTimeDecay] using List.mem_map_of_mem (fun q => (q.1, decayEntry now q.2)) hmem
  refine ⟨fun h => ?_, fun h => ?_, fun h => ?_, fun h => ?_⟩
  · simpa [decayEntry, h] using himg
  · simpa [decayEntry, h] using himg
  · subst h
    have helapsed : lu + 14 * (24 * 60 * 60 * 1000) - lu = 14 * (24 * 60 * 60 * 1000) := by
      omega
    have hper : (14 * (24 * 60 * 60 * 1000)) / DECAY_INTERVAL_MS = 2 := by
      simp [DECAY_INTERVAL_MS]
    simpa [decayEntry, helapsed, hper] using himg
  · subst h
    have helapsed : lu + 6 * (24 * 60 * 60 * 1000) - lu = 6 * (24 * 60 * 60 * 1000) := by
      omega
    have hper : (6 * (24 * 60 * 60 * 1000)) / DECAY_INTERVAL_MS = 0 := by
      simp [DECAY_INTERVAL_MS]
    simpa [decayEntry, helapsed, hper] using himg

/-- Witness for C3: both instances hold on `profileDecay`. -/
theorem applyTimeDecay_spec_witness :
    (("Lofi", (⟨(1 : ℚ) * DECAY_RATE ^ 2, 14 * (24 * 60 * 60 * 1000)⟩ : InterestEntry))
      ∈ (applyTimeDecay profileDecay (14 * (24 * 60 * 60 * 1000))).interestMap) ∧
    (("Lofi", (⟨(1 : ℚ), 0⟩ : InterestEntry))
      ∈ (applyTimeDecay profileDecay (6 * (24 * 60 * 60 * 1000))).interestMap) :=
  ⟨(applyTimeDecay_spec profileDecay (14 * (24 * 60 * 60 * 1000)) "Lofi" 1 0
      (by simp [profileDecay])).2.2.1 rfl,
   (applyTimeDecay_spec profileDecay (6 * (24 * 60 * 60 * 1000)) "Lofi" 1 0
      (by simp [profileDecay])).2.2.2 rfl⟩

/-! ## C6: play-count threshold -/

/-- The play-count store after `n` successful plays of the same id. -/
def playStoreAfter (id url title artist : String) (now : Nat) :
    Nat → List PlayCount
  | 0 => []
  | n + 1 =>
      (recordPlay true true (playStoreAfter id url title artist now n)
        id url title artist now).2

lemma find?_putPlay_self (store : List PlayCount) (d : PlayCount) :
    (putPlay store d).find? (fun e => e.id == d.id) = some d := by
  unfold putPlay
  split
  · next hany =>
      induction store with
      | nil => simp at hany
      | cons x xs ih =>
          by_cases hx : x.id == d.id
          · simp [List.find?, hx]
          · have hany' : xs.any (fun e => e.id == d.id) = true := by
              rcases List.any_eq_true.1 hany with ⟨e, he, hid⟩
              rcases List.mem_cons.1 he with rfl | he'
              · simp_all
              · exact List.any_eq_true.2 ⟨e, he', hid⟩
            simpa [List.find?, hx] using ih hany'
  · next hany =>
      have hnone : store.find? (fun e => e.id == d.id) = none := by
        rw [List.find?_eq_none]
        intro e he
        intro hc
        exact hany (List.any_eq_true.2 ⟨e, he, hc⟩)
      simp [List.find?_append, hnone, List.find?]

lemma getCount_putPlay_self (store : List PlayCount) (d : PlayCount) :
    getCount (putPlay store d) d.id = d.count := by
  simp [getCount, find?_putPlay_self]

lemma getCount_playStoreAfter (id url title artist : String) (now : Nat) :
    ∀ n, getCount (playStoreAfter id url title artist now n) id = n := by
  intro n
  induction n with
  | zero => simp [playStoreAfter, getCount]
  | succ m ih =>
      show getCount
        (recordPlay true true (playStoreAfter id url title artist now m)
          id url title artist now).2 id = m + 1
      simp only [recordPlay, Bool.not_true, Bool.false_eq_true, if_false,
        ite_false]
      have := getCount_putPlay_self (playStoreAfter id url title artist now m)
        ⟨id, getCount (playStoreAfter id url title artist now m) id + 1, now,
          url, title, artist⟩
      simpa [ih] using this

/-- C6.  `recordPlay` returns one plus the previously stored count (0 when
no record exists) and `shouldCache` exactly when the incremented count is at
least 3; hence plays 1 and 2 of an id report `shouldCache = false` and every
play from the third onwards reports `shouldCache = true`. -/
theorem recordPlay_threshold (store : List PlayCount)
    (id url title artist : String) (now : Nat) :
    ((recordPlay true true store id url title artist now).1.2
        = getCount store id + 1) ∧
    ((recordPlay true true store id url title artist now).1.1 = true
        ↔ 3 ≤ getCount store id + 1) ∧
    (getCount (recordPlay true true store id url title artist now).2 id
        = getCount store id + 1) ∧
    (∀ n, 0 < n →
      (recordPlay true true (playStoreAfter id url title artist now (n - 1))
          id url title artist now).1 = (decide (3 ≤ n), n)) := by
  refine ⟨by simp [recordPlay, CACHE_THRESHOLD], ?_, ?_, ?_⟩
  · simp [recordPlay, CACHE_THRESHOLD]
  · simp only [recordPlay, Bool.not_true, Bool.false_eq_true, if_false,
      ite_false]
    exact getCount_putPlay_self store _
  · intro n hn
    have hprev := getCount_playStoreAfter id url title artist now (n - 1)
    simp only [recordPlay, Bool.not_true, Bool.false_eq_true, ite_false]
    have hsub : n - 1 + 1 = n := by omega
    simp [hprev, hsub, CACHE_THRESHOLD]

/-- Witness for C6: the third play of an id crosses the threshold. -/
theorem recordPlay_threshold_witness :
    (recordPlay true true (playStoreAfter "s" "u" "t" "a" 0 (3 - 1))
        "s" "u" "t" "a" 0).1 = (decide (3 ≤ 3), 3) :=
  (recordPlay_threshold [] "s" "u" "t" "a" 0).2.2.2 3 (by decide)

/-! ## C10: benign defaults on database / request failure -/

/-- C10.  When the database failed to open, or the individual store request
errors, every public cache operation resolves to its benign default:
`recordPlay` to `{shouldCache := false, playCount := 0}`, `isCached` to
`false`, `getCachedAudioUrl` to `null`, and `getStats` to zeroes. -/
theorem cacheOps_benign_defaults (db reqOk : Bool)
    (h : db = false ∨ reqOk = false)
    (playStore : List PlayCount) (store : List CachedAudio)
    (id url title artist : String) (now : Nat) :
    (recordPlay db reqOk playStore id url title artist now).1 = (false, 0) ∧
    isCached db reqOk store id = false ∧
    (getCachedAudioUrl db reqOk store id now).1 = none ∧
    getStats db reqOk store = ⟨0, 0, []⟩ := by
  rcases h with h | h <;> subst h
  · exact ⟨by simp [recordPlay], by simp [isCached],
      by simp [getCachedAudioUrl], by simp [getStats]⟩
  · cases db
    · exact ⟨by simp [recordPlay], by simp [isCached],
        by simp [getCachedAudioUrl], by simp [getStats]⟩
    · exact ⟨by simp [recordPlay], by simp [isCached],
        by simp [getCachedAudioUrl], by simp [getStats]⟩

/-- Witness for C10, with an unavailable database and a non-trivial store. -/
theorem cacheOps_benign_defaults_witness :
    (recordPlay false true [] "s" "u" "t" "a" 7).1 = (false, 0) ∧
    isCached false true bigStore "c0" = false ∧
    (getCachedAudioUrl false true bigStore "c0" 7).1 = none ∧
    getStats false true bigStore = ⟨0, 0, []⟩ :=
  cacheOps_benign_defaults false true (Or.inl rfl) [] bigStore "c0" "u" "t" "a" 7

/-! ## C2: LRU eviction pre-check -/

lemma evictLoop_spec (l : List CachedAudio) :
    ∃ k, evictLoop l = l.drop k ∧
      cacheSizeSum (evictLoop l) ≤ MAX_CACHE_SIZE_MB * 1024 * 1024 ∧
      (evictLoop l).length ≤ MAX_CACHE_ITEMS ∧
      ∀ j < k, MAX_CACHE_SIZE_MB * 1024 * 1024 < cacheSizeSum (l.drop j) ∨
        MAX_CACHE_ITEMS < (l.drop j).length := by
  induction l with
  | nil =>
      exact ⟨0, rfl, by simp [evictLoop, cacheSizeSum],
        by simp [evictLoop, MAX_CACHE_ITEMS], by omega⟩
  | cons x xs ih =>
      by_cases hc : MAX_CACHE_SIZE_MB * 1024 * 1024 < cacheSizeSum (x :: xs)
          ∨ MAX_CACHE_ITEMS < (x :: xs).length
      · obtain ⟨k, hk₁, hk₂, hk₃, hk₄⟩ := ih
        have hstep : evictLoop (x :: xs) = evictLoop xs := by
          rw [evictLoop, if_pos hc]
        refine ⟨k + 1, ?_, ?_, ?_, ?_⟩
        · rw [hstep, hk₁]; rfl
        · rw [hstep]; exact hk₂
        · rw [hstep]; exact hk₃
        · intro j hj
          match j with
          | 0 => simpa using hc
          | j' + 1 => exact hk₄ j' (by omega)
      · have hstep : evictLoop (x :: xs) = x :: xs := by
          rw [evictLoop, if_neg hc]
        push_neg at hc
        refine ⟨0, by rw [hstep]; rfl, ?_, ?_, by omega⟩
        · rw [hstep]; exact hc.1
        · rw [hstep]; exact hc.2

/-- C2.  The eviction pre-check removes exactly a prefix of the entries
ordered (stably) by ascending `lastAccessed`: the enumerated entries are a
permutation of the store sorted so that `lastAccessed` is non-decreasing,
the result drops precisely the first `k` of them, afterwards both the
500 MB byte budget and the 50-entry count budget hold, and no entry is
removed once both budgets are satisfied (dropping any fewer leaves a budget
violated). -/
theorem ensureCacheSpace_lru (store : List CachedAudio) :
    (sortByLastAccessed store).Perm store ∧
    (sortByLastAccessed store).Pairwise
      (fun a b => a.lastAccessed ≤ b.lastAccessed) ∧
    ∃ k, ensureCacheSpace store = (sortByLastAccessed store).drop k ∧
      cacheSizeSum (ensureCacheSpace store) ≤ MAX_CACHE_SIZE_MB * 1024 * 1024 ∧
      (ensureCacheSpace store).length ≤ MAX_CACHE_ITEMS ∧
      ∀ j < k,
        MAX_CACHE_SIZE_MB * 1024 * 1024 <
            cacheSizeSum ((sortByLastAccessed store).drop j) ∨
          MAX_CACHE_ITEMS < ((sortByLastAccessed store).drop j).length := by
  refine ⟨List.perm_insertionSort _ store, ?_, evictLoop_spec _⟩
  haveI : IsTotal CachedAudio (fun a b => a.lastAccessed ≤ b.lastAccessed) :=
    ⟨fun a b => Nat.le_total a.lastAccessed b.lastAccessed⟩
  haveI : IsTrans CachedAudio (fun a b => a.lastAccessed ≤ b.lastAccessed) :=
    ⟨fun _ _ _ hab hbc => le_trans hab hbc⟩
  exact List.sorted_insertionSort _ store

/-! ## Component lemmas for `recordInteraction` -/

lemma updateInterestScore_likedSongs (p : UserProfile) (tags : List String)
    (a : ScoreAction) (now : Nat) :
    (updateInterestScore p tags a now).likedSongs = p.likedSongs := rfl

lemma updateInterestScore_dislikedSongs (p : UserProfile) (tags : List String)
    (a : ScoreAction) (now : Nat) :
    (updateInterestScore p tags a now).dislikedSongs = p.dislikedSongs := rfl

lemma updateInterestScore_interactions (p : UserProfile) (tags : List String)
    (a : ScoreAction) (now : Nat) :
    (updateInterestScore p tags a now).interactions = p.interactions := rfl

lemma updateInterestScore_listenHistory (p : UserProfile) (tags : List String)
    (a : ScoreAction) (now : Nat) :
    (updateInterestScore p tags a now).listenHistory = p.listenHistory := rfl

lemma appendInteraction_likedSongs (p : UserProfile) (e : SongInteraction) :
    (appendInteraction p e).likedSongs = p.likedSongs := rfl

lemma appendInteraction_dislikedSongs (p : UserProfile) (e : SongInteraction) :
    (appendInteraction p e).dislikedSongs = p.dislikedSongs := rfl

lemma appendInteraction_interactions (p : UserProfile) (e : SongInteraction) :
    (appendInteraction p e).interactions =
      (p.interactions ++ [e]).drop ((p.interactions ++ [e]).length - 500) := by
  unfold appendInteraction
  dsimp only
  split
  · rfl
  · next h =>
      have h0 : (p.interactions ++ [e]).length - 500 = 0 := by
        simp only [List.length_append] at h ⊢
        omega
      rw [h0, List.drop_zero]

lemma touchListenHistory_likedSongs (p : UserProfile) (s : String)
    (a : SongAction) (tags : List String) (now : Nat) :
    (touchListenHistory p s a tags now).likedSongs = p.likedSongs := by
  unfold touchListenHistory
  dsimp only
  repeat' split
  all_goals rfl

lemma touchListenHistory_dislikedSongs (p : UserProfile) (s : String)
    (a : SongAction) (tags : List String) (now : Nat) :
    (touchListenHistory p s a tags now).dislikedSongs = p.dislikedSongs := by
  unfold touchListenHistory
  dsimp only
  repeat' split
  all_goals rfl

lemma touchListenHistory_interactions (p : UserProfile) (s : String)
    (a : SongAction) (tags : List String) (now : Nat) :
    (touchListenHistory p s a tags now).interactions = p.interactions := by
  unfold touchListenHistory
  dsimp only
  repeat' split
  all_goals rfl

lemma applyActionLists_interactions (p : UserProfile) (s : String)
    (a : SongAction) (tags : List String) (cr : Option ℚ) (now : Nat) :
    (applyActionLists p s a tags cr now).interactions = p.interactions := by
  cases a
  · unfold applyActionLists; dsimp only; split <;> rfl
  · unfold applyActionLists; dsimp only; split <;> rfl
  · unfold applyActionLists; dsimp only; split <;> rfl
  · rfl
  · rfl
  · unfold applyActionLists
    rcases cr with _ | r
    · rfl
    · dsimp only
      split <;> rfl

lemma recordInteraction_likedSongs (p : UserProfile) (s : String)
    (a : SongAction) (tags : List String) (cr : Option ℚ) (now : Nat) :
    (recordInteraction p s a tags cr now).likedSongs =
      match a with
      | .like =>
          if s ∈ p.likedSongs then p.likedSongs else p.likedSongs ++ [s]
      | .dislike =>
          if s ∈ p.dislikedSongs then p.likedSongs
          else p.likedSongs.filter (fun i => i ≠ s)
      | _ => p.likedSongs := by
  show (touchListenHistory (applyActionLists (appendInteraction p _) s a tags cr now)
      s a tags now).likedSongs = _
  rw [touchListenHistory_likedSongs]
  cases a <;>
    simp only [applyActionLists, appendInteraction_likedSongs,
      appendInteraction_dislikedSongs, updateInterestScore_likedSongs]
  case like => split <;> rfl
  case dislike => split <;> rfl
  case save => split <;> rfl
  case complete =>
    rcases cr with _ | r
    · rfl
    · dsimp only
      split <;> rfl

lemma recordInteraction_dislikedSongs (p : UserProfile) (s : String)
    (a : SongAction) (tags : List String) (cr : Option ℚ) (now : Nat) :
    (recordInteraction p s a tags cr now).dislikedSongs =
      match a with
      | .like =>
          if s ∈ p.likedSongs then p.dislikedSongs
          else p.dislikedSongs.filter (fun i => i ≠ s)
      | .dislike =>
          if s ∈ p.dislikedSongs then p.dislikedSongs
          else p.dislikedSongs ++ [s]
      | _ => p.dislikedSongs := by
  show (touchListenHistory (applyActionLists (appendInteraction p _) s a tags cr now)
      s a tags now).dislikedSongs = _
  rw [touchListenHistory_dislikedSongs]
  cases a <;>
    simp only [applyActionLists, appendInteraction_likedSongs,
      appendInteraction_dislikedSongs, updateInterestScore_dislikedSongs]
  case like => split <;> rfl
  case dislike => split <;> rfl
  case save => split <;> rfl
  case complete =>
    rcases cr with _ | r
    · rfl
    · dsimp only
      split <;> rfl

lemma recordInteraction_interactions (p : UserProfile) (s : String)
    (a : SongAction) (tags : List String) (cr : Option ℚ) (now : Nat) :
    (recordInteraction p s a tags cr now).interactions =
      (p.interactions ++ [(⟨s, now, a, cr, tags⟩ : SongInteraction)]).drop
        ((p.interactions ++ [(⟨s, now, a, cr, tags⟩ : SongInteraction)]).length
          - 500) := by
  show (touchListenHistory
      (applyActionLists
        (appendInteraction p (⟨s, now, a, cr, tags⟩ : SongInteraction))
        s a tags cr now)
      s a tags now).interactions = _
  rw [touchListenHistory_interactions, applyActionLists_interactions,
    appendInteraction_interactions]

/-! ## C4: like/dislike mutual exclusion -/

/-- The membership-set invariant maintained by `recordInteraction`. -/
def SetsOk (p : UserProfile) : Prop :=
  p.likedSongs.Nodup ∧ p.dislikedSongs.Nodup ∧
    ∀ x ∈ p.likedSongs, x ∉ p.dislikedSongs

lemma setsOk_recordInteraction {p : UserProfile} (h : SetsOk p)
    (s : String) (a : SongAction) (tags : List String) (cr : Option ℚ)
    (now : Nat) : SetsOk (recordInteraction p s a tags cr now) := by
  obtain ⟨hl, hd, hx⟩ := h
  unfold SetsOk
  simp only [recordInteraction_likedSongs, recordInteraction_dislikedSongs]
  cases a <;> dsimp only
  case like =>
    by_cases hs : s ∈ p.likedSongs
    · simp only [if_pos hs]
      exact ⟨hl, hd, hx⟩
    · simp only [if_neg hs]
      refine ⟨?_, hd.filter _, ?_⟩
      · simp [List.nodup_append, hl, hs]
      · intro x hxl hc
        have hc1 := List.mem_of_mem_filter hc
        have hc2 := (List.mem_filter.1 hc).2
        rcases List.mem_append.1 hxl with hxl' | hxs
        · exact hx x hxl' hc1
        · have hxe : x = s := by simpa using hxs
          simp [hxe] at hc2
  case dislike =>
    by_cases hs : s ∈ p.dislikedSongs
    · simp only [if_pos hs]
      exact ⟨hl, hd, hx⟩
    · simp only [if_neg hs]
      refine ⟨hl.filter _, ?_, ?_⟩
      · simp [List.nodup_append, hd, hs]
      · intro x hxl hc
        have hx1 := List.mem_of_mem_filter hxl
        have hx2 := (List.mem_filter.1 hxl).2
        rcases List.mem_append.1 hc with hc' | hcs
        · exact hx x hx1 hc'
        · have hxe : x = s := by simpa using hcs
          simp [hxe] at hx2
  all_goals exact ⟨hl, hd, hx⟩

lemma setsOk_replay (es : List Ev) :
    ∀ {p : UserProfile}, SetsOk p → SetsOk (replay p es) := by
  induction es with
  | nil => intro p h; exact h
  | cons e es ih =>
      intro p h
      exact ih (setsOk_recordInteraction h e.songId e.action e.tags
        e.completionRate e.now)

lemma setsOk_freshProfile (now : Nat) : SetsOk (freshProfile now) :=
  ⟨List.nodup_nil, List.nodup_nil, by simp [freshProfile]⟩

/-- C4.  In every profile reachable from a fresh profile by
`recordInteraction` calls, the liked and disliked lists are duplicate-free
and disjoint; recording a `like` for `x` leaves `x` in `likedSongs` and out
of `dislikedSongs`, and recording a `dislike` does the opposite. -/
theorem likeDislike_mutual_exclusion (es : List Ev) (now0 : Nat) (x : String)
    (tags : List String) (cr : Option ℚ) (now : Nat) :
    ((replay (freshProfile now0) es).likedSongs.Nodup ∧
     (replay (freshProfile now0) es).dislikedSongs.Nodup ∧
     ∀ y ∈ (replay (freshProfile now0) es).likedSongs,
       y ∉ (replay (freshProfile now0) es).dislikedSongs) ∧
    (x ∈ (recordInteraction (replay (freshProfile now0) es) x .like tags cr
        now).likedSongs ∧
     x ∉ (recordInteraction (replay (freshProfile now0) es) x .like tags cr
        now).dislikedSongs) ∧
    (x ∈ (recordInteraction (replay (freshProfile now0) es) x .dislike tags cr
        now).dislikedSongs ∧
     x ∉ (recordInteraction (replay (freshProfile now0) es) x .dislike tags cr
        now).likedSongs) := by
  obtain ⟨hl, hd, hx⟩ := setsOk_replay es (setsOk_freshProfile now0)
  set p := replay (freshProfile now0) es with hp
  refine ⟨⟨hl, hd, hx⟩, ⟨?_, ?_⟩, ⟨?_, ?_⟩⟩
  · rw [recordInteraction_likedSongs]
    dsimp only
    split
    · assumption
    · exact List.mem_append.2 (Or.inr (List.mem_singleton.2 rfl))
  · rw [recordInteraction_dislikedSongs]
    dsimp only
    split
    · next hs => exact hx x hs
    · intro hc
      have := (List.mem_filter.1 hc).2
      simp_all
  · rw [recordInteraction_dislikedSongs]
    dsimp only
    split
    · assumption
    · exact List.mem_append.2 (Or.inr (List.mem_singleton.2 rfl))
  · rw [recordInteraction_likedSongs]
    dsimp only
    split
    · next hs => exact fun hc => hx x hc hs
    · intro hc
      have := (List.mem_filter.1 hc).2
      simp_all

/-! ## C7: interaction log ring bound -/

/-- The interaction record appended for one call. -/
def evToInteraction (e : Ev) : SongInteraction :=
  ⟨e.songId, e.now, e.action, e.completionRate, e.tags⟩

/-- Keep the most recent 500 entries. -/
def capLog (l : List SongInteraction) : List SongInteraction :=
  l.drop (l.length - 500)

lemma drop_append_general {α : Type} (l₁ l₂ : List α) (n : Nat) :
    (l₁ ++ l₂).drop n = l₁.drop n ++ l₂.drop (n - l₁.length) := by
  induction l₁ generalizing n with
  | nil => simp
  | cons a l ih =>
      cases n with
      | zero => simp
      | succ m => simpa [Nat.succ_sub_succ] using ih m

lemma capLog_length (l : List SongInteraction) :
    (capLog l).length = min l.length 500 := by
  simp only [capLog, List.length_drop]
  omega

lemma capLog_capLog_append (l l₂ : List SongInteraction) :
    capLog (capLog l ++ l₂) = capLog (l ++ l₂) := by
  unfold capLog
  rw [drop_append_general, drop_append_general, List.drop_drop,
    List.length_append, List.length_append, List.length_drop]
  have h₁ : l.length - 500 + (l.length - (l.length - 500) + l₂.length - 500)
      = l.length + l₂.length - 500 := by omega
  have h₂ : l.length - (l.length - 500) + l₂.length - 500 -
      (l.length - (l.length - 500)) = l.length + l₂.length - 500 - l.length := by
    omega
  rw [h₁, h₂]

lemma replay_interactions (es : List Ev) :
    ∀ p : UserProfile, p.interactions.length ≤ 500 →
      (replay p es).interactions =
        capLog (p.interactions ++ es.map evToInteraction) := by
  induction es with
  | nil =>
      intro p hp
      simp only [replay, List.map_nil, List.append_nil, capLog]
      have : p.interactions.length - 500 = 0 := by omega
      simp [this]
  | cons e es ih =>
      intro p hp
      have hrec : (recordInteraction p e.songId e.action e.tags
          e.completionRate e.now).interactions =
          capLog (p.interactions ++ [evToInteraction e]) :=
        recordInteraction_interactions p e.songId e.action e.tags
          e.completionRate e.now
      have hlen : (recordInteraction p e.songId e.action e.tags
          e.completionRate e.now).interactions.length ≤ 500 := by
        rw [hrec, capLog_length]; omega
      calc (replay p (e :: es)).interactions
      _ = capLog ((recordInteraction p e.songId e.action e.tags
            e.completionRate e.now).interactions ++ es.map evToInteraction) :=
          ih _ hlen
      _ = capLog (capLog (p.interactions ++ [evToInteraction e])
            ++ es.map evToInteraction) := by rw [hrec]
      _ = capLog ((p.interactions ++ [evToInteraction e])
            ++ es.map evToInteraction) := capLog_capLog_append _ _
      _ = capLog (p.interactions ++ (e :: es).map evToInteraction) := by
          simp

/-- C7.  After any sequence of `recordInteraction` calls on a fresh profile
the log holds exactly the most recent 500 interaction records, in recording
order: it equals the full sequence of appended records with all but the last
500 dropped, so its length is `min n 500`. -/
theorem interactionLog_ring (es : List Ev) (now0 : Nat) :
    (replay (freshProfile now0) es).interactions =
      (es.map evToInteraction).drop (es.length - 500) ∧
    (replay (freshProfile now0) es).interactions.length = min es.length 500 := by
  have h := replay_interactions es (freshProfile now0) (by simp [freshProfile])
  have hfresh : (freshProfile now0).interactions = [] := rfl
  rw [hfresh, List.nil_append] at h
  constructor
  · rw [h]; unfold capLog; rw [List.length_map]
  · rw [h, capLog_length, List.length_map]

/-! ## C8: oversized-payload admission -/

/-- C8, counterexample to the claim as stated: on a cache holding eleven
50 MB entries (550 MB, over budget — a reachable state, since eviction runs
before, not after, each admission write), a `cacheAudio` call whose fetched
payload is 51 MB returns failure, yet the call is *not* a no-op on the cache
contents: the eviction pre-check, which runs before the fetch, has already
removed an entry (11 entries before, 10 after). -/
theorem cacheAudio_oversize_counterexample :
    (cacheAudio true bigStore "new" "u" "t" "a"
        (.ok (51 * 1024 * 1024) "") true 100).1 = false ∧
    (cacheAudio true bigStore "new" "u" "t" "a"
        (.ok (51 * 1024 * 1024) "") true 100).2.length = 10 ∧
    bigStore.length = 11 :=
  ⟨by decide, by decide, by decide⟩

/-- C8, amended.  A call for an already-cached id returns success without
touching the store; a call whose fetched payload exceeds the 50 MB ceiling
returns failure and writes no entry for the id, but its cache contents are
those left by the eviction pre-check (`ensureCacheSpace`), which runs before
the fetch and may evict entries when the cache exceeds its budgets. -/
theorem cacheAudio_oversize_amended (store : List CachedAudio)
    (trackId url title artist mime : String) (size : Nat) (f : FetchResult)
    (reqOk : Bool) (now : Nat) :
    (isCachedPure store trackId = true →
      cacheAudio true store trackId url title artist f reqOk now
        = (true, store)) ∧
    (isCachedPure store trackId = false → 50 * 1024 * 1024 < size →
      cacheAudio true store trackId url title artist (.ok size mime) reqOk now
        = (false, ensureCacheSpace store)) := by
  constructor
  · intro hc
    simp [cacheAudio, hc]
  · intro hc hsize
    simp [cacheAudio, hc, hsize]

/-- Witness for C8 (amended): an already-cached id is a no-op success, and
an oversized fetch on an empty cache fails leaving the (trivially evicted)
store. -/
theorem cacheAudio_oversize_amended_witness :
    (cacheAudio true [⟨"a", 1, "", 0, 0, "", ""⟩] "a" "u" "t" "r"
        .fail true 0 = (true, [⟨"a", 1, "", 0, 0, "", ""⟩])) ∧
    (cacheAudio true [] "b" "u" "t" "r" (.ok (51 * 1024 * 1024) "") true 0
        = (false, ensureCacheSpace [])) :=
  ⟨(cacheAudio_oversize_amended [⟨"a", 1, "", 0, 0, "", ""⟩] "a" "u" "t" "r" ""
      0 .fail true 0).1 (by decide),
   (cacheAudio_oversize_amended [] "b" "u" "t" "r" "" (51 * 1024 * 1024)
      .fail true 0).2 (by decide) (by decide)⟩

/-! ## C9: listen-history creation on non-play actions -/

unseal Rat.mul Rat.add Rat.sub Rat.inv in
/-- C9, the code's behavior at the failing input: recording a single `like`
for song `"s"` on a fresh profile — no `play` or `complete` ever recorded —
creates a `listenHistory` entry for `"s"` (with `playCount = 0`), and the
ranker therefore scores the liked-but-never-played track `trackS` at 2
(no tag score, +2 liked bonus) instead of granting the +1 novelty bonus
(which would give 3). -/
theorem listenHistory_like_bug :
    (((recordInteraction (freshProfile 0) "s" .like ["Lofi"] none
        5).listenHistory.lookup "s").isSome = true) ∧
    ((calculateTrackScore trackS
        (recordInteraction (freshProfile 0) "s" .like ["Lofi"] none 5)).1
      = 2) :=
  ⟨by decide, by decide⟩

/-! ## C1: disliked items and `getRecommendations` -/

unseal Rat.mul Rat.add Rat.sub Rat.inv in
/-- C1, counterexample to the claim as stated: `profileHigh` dislikes `"x"`
but holds a 100-point interest in its genre tag, so `trackX` scores
100 + 1 − 100 = 1 > −50, passes the content filter, and the disliked item is
the output of `getRecommendations` — for every limit the claim quantifies
over, here at the spec's default limit 20. -/
theorem getRecommendations_disliked_counterexample :
    "x" ∈ profileHigh.dislikedSongs ∧
    ((getRecommendations [trackX] (some profileHigh) (freshProfile 0) 20
        (fun _ => 0)).map (fun st => st.track.id)) = ["x"] :=
  ⟨by decide, by decide⟩

/-! ## Membership machinery for the ranker pipeline -/

lemma jsSliceTo_subset {α : Type} (l : List α) (c : Int) :
    jsSliceTo l c ⊆ l := by
  unfold jsSliceTo
  split <;> exact List.take_subset _ _

lemma jsSliceTo_length_le {α : Type} (l : List α) (c : Int) (hc : 0 ≤ c) :
    (jsSliceTo l c).length ≤ c.toNat := by
  unfold jsSliceTo
  rw [if_neg (not_lt.2 hc)]
  simp [List.length_take]

lemma jsSpliceInsert_pos_le {α : Type} (l : List α) (pos : Int) :
    (if pos < 0 then (max ((l.length : Int) + pos) 0).toNat
     else min pos.toNat l.length) ≤ l.length := by
  split
  · next h =>
      have h1 : max ((l.length : Int) + pos) 0 ≤ (l.length : Int) := by
        apply max_le
        · omega
        · omega
      omega
  · exact min_le_right _ _

lemma jsSpliceInsert_mem {α : Type} {l : List α} {pos : Int} {a b : α} :
    b ∈ jsSpliceInsert l pos a ↔ b = a ∨ b ∈ l := by
  unfold jsSpliceInsert
  dsimp only
  exact List.mem_insertIdx (jsSpliceInsert_pos_le l pos)

lemma jsSpliceInsert_length {α : Type} (l : List α) (pos : Int) (a : α) :
    (jsSpliceInsert l pos a).length = l.length + 1 := by
  unfold jsSpliceInsert
  dsimp only
  exact List.length_insertIdx _ _ (jsSpliceInsert_pos_le l pos)

lemma getD_mem_of_lt {α : Type} (l : List α) (i : Nat) (d : α)
    (h : i < l.length) : l.getD i d ∈ l := by
  rw [List.getD_eq_getElem?_getD, List.getElem?_eq_getElem h]
  exact List.getElem_mem h

lemma pickDiscoveries_mem (rand : Nat → Nat) :
    ∀ (r i : Nat) (pool : List ScoredTrack) (st : ScoredTrack),
      st ∈ (pickDiscoveries rand i r pool).1 →
      ∃ st0 ∈ pool, st = { st0 with isDiscovery := true } := by
  intro r
  induction r with
  | zero => intro i pool st h; simp [pickDiscoveries] at h
  | succ n ih =>
      intro i pool st h
      match pool with
      | [] => simp [pickDiscoveries] at h
      | x :: xs =>
          rw [pickDiscoveries] at h
          dsimp only at h
          rcases List.mem_cons.1 h with rfl | h₂
          · have hlt : rand i % (x :: xs).length < (x :: xs).length :=
              Nat.mod_lt _ (by simp)
            exact ⟨(x :: xs).getD (rand i % (x :: xs).length) x,
              getD_mem_of_lt _ _ _ hlt, rfl⟩
          · obtain ⟨st0, hst0, hmark⟩ := ih (i + 1) _ st h₂
            exact ⟨st0, List.eraseIdx_subset _ _ hst0, hmark⟩

lemma pickDiscoveries_length_le (rand : Nat → Nat) :
    ∀ (r i : Nat) (pool : List ScoredTrack),
      (pickDiscoveries rand i r pool).1.length ≤ r := by
  intro r
  induction r with
  | zero => intro i pool; simp [pickDiscoveries]
  | succ n ih =>
      intro i pool
      match pool with
      | [] => simp [pickDiscoveries]
      | x :: xs =>
          rw [pickDiscoveries]
          dsimp only
          simpa using ih (i + 1) _

lemma pickDiscoveries_exists_discovery (rand : Nat → Nat) (r i : Nat)
    (pool : List ScoredTrack) (hr : 0 < r) (hpool : pool ≠ []) :
    ∃ st ∈ (pickDiscoveries rand i r pool).1, st.isDiscovery = true := by
  match r, pool with
  | 0, _ => omega
  | n + 1, [] => exact absurd rfl hpool
  | n + 1, x :: xs =>
      rw [pickDiscoveries]
      dsimp only
      exact ⟨_, List.mem_cons_self _ _, rfl⟩

/-- The fold step of `interleaveDiscoveries`. -/
def spliceStep (contentCount : Int) (discoveryCount : Nat)
    (acc : List ScoredTrack) (q : Nat × ScoredTrack) : List ScoredTrack :=
  jsSpliceInsert acc
    (min ((3 : Int) + q.1 * Int.fdiv contentCount discoveryCount)
      (acc.length : Int))
    q.2

lemma interleaveDiscoveries_eq_foldl (content ds : List ScoredTrack)
    (cc : Int) (dc : Nat) :
    interleaveDiscoveries content ds cc dc =
      ds.enum.foldl (spliceStep cc dc) content := rfl

lemma foldl_spliceStep_mem (cc : Int) (dc : Nat) :
    ∀ (pairs : List (Nat × ScoredTrack)) (acc : List ScoredTrack)
      (st : ScoredTrack),
      st ∈ pairs.foldl (spliceStep cc dc) acc →
      st ∈ acc ∨ ∃ q ∈ pairs, st = q.2 := by
  intro pairs
  induction pairs with
  | nil => intro acc st h; exact Or.inl h
  | cons q rest ih =>
      intro acc st h
      rcases ih _ st h with h₂ | ⟨q₂, hq₂, rfl⟩
      · rcases jsSpliceInsert_mem.1 h₂ with rfl | h₃
        · exact Or.inr ⟨q, List.mem_cons_self _ _, rfl⟩
        · exact Or.inl h₃
      · exact Or.inr ⟨q₂, List.mem_cons_of_mem _ hq₂, rfl⟩

lemma foldl_spliceStep_mem_of_acc (cc : Int) (dc : Nat) :
    ∀ (pairs : List (Nat × ScoredTrack)) (acc : List ScoredTrack)
      (st : ScoredTrack), st ∈ acc →
      st ∈ pairs.foldl (spliceStep cc dc) acc := by
  intro pairs
  induction pairs with
  | nil => intro acc st h; exact h
  | cons q rest ih =>
      intro acc st h
      exact ih _ st (jsSpliceInsert_mem.2 (Or.inr h))

lemma foldl_spliceStep_mem_of_pair (cc : Int) (dc : Nat) :
    ∀ (pairs : List (Nat × ScoredTrack)) (acc : List ScoredTrack)
      (q : Nat × ScoredTrack), q ∈ pairs →
      q.2 ∈ pairs.foldl (spliceStep cc dc) acc := by
  intro pairs
  induction pairs with
  | nil => intro acc q h; exact absurd h (List.not_mem_nil _)
  | cons q₁ rest ih =>
      intro acc q h
      rcases List.mem_cons.1 h with rfl | h₂
      · exact foldl_spliceStep_mem_of_acc cc dc rest _ _
          (jsSpliceInsert_mem.2 (Or.inl rfl))
      · exact ih _ q h₂

lemma foldl_spliceStep_length (cc : Int) (dc : Nat) :
    ∀ (pairs : List (Nat × ScoredTrack)) (acc : List ScoredTrack),
      (pairs.foldl (spliceStep cc dc) acc).length =
        acc.length + pairs.length := by
  intro pairs
  induction pairs with
  | nil => intro acc; rfl
  | cons q rest ih =>
      intro acc
      rw [List.foldl_cons, ih]
      show (jsSpliceInsert acc _ q.2).length + rest.length = _
      rw [jsSpliceInsert_length]
      simp
      omega

lemma enumFrom_map_snd {α : Type} :
    ∀ (i : Nat) (l : List α), (l.enumFrom i).map Prod.snd = l := by
  intro i l
  induction l generalizing i with
  | nil => rfl
  | cons a t ih => simp [ih]

lemma enum_map_snd {α : Type} (l : List α) :
    l.enum.map Prod.snd = l :=
  enumFrom_map_snd 0 l

lemma interleaveDiscoveries_mem {content ds : List ScoredTrack} {cc : Int}
    {dc : Nat} {st : ScoredTrack}
    (h : st ∈ interleaveDiscoveries content ds cc dc) :
    st ∈ content ∨ st ∈ ds := by
  rw [interleaveDiscoveries_eq_foldl] at h
  rcases foldl_spliceStep_mem cc dc ds.enum content st h with h₂ | ⟨q, hq, rfl⟩
  · exact Or.inl h₂
  · right
    have hm := List.mem_map_of_mem Prod.snd hq
    rwa [enum_map_snd] at hm

lemma interleaveDiscoveries_mem_of_mem_ds {content ds : List ScoredTrack}
    {cc : Int} {dc : Nat} {st : ScoredTrack} (h : st ∈ ds) :
    st ∈ interleaveDiscoveries content ds cc dc := by
  rw [interleaveDiscoveries_eq_foldl]
  have hm : st ∈ (ds.enum.map Prod.snd) := by rwa [enum_map_snd]
  obtain ⟨q, hq, hqe⟩ := List.mem_map.1 hm
  have := foldl_spliceStep_mem_of_pair cc dc ds.enum content q hq
  rwa [hqe] at this

lemma interleaveDiscoveries_length (content ds : List ScoredTrack) (cc : Int)
    (dc : Nat) :
    (interleaveDiscoveries content ds cc dc).length =
      content.length + ds.length := by
  rw [interleaveDiscoveries_eq_foldl, foldl_spliceStep_length]
  simp [List.enumFrom_length]

lemma length_filter_not_add (l : List ScoredTrack) (q : ScoredTrack → Bool) :
    (l.filter (fun a => !(q a))).length + (l.filter q).length = l.length := by
  induction l with
  | nil => rfl
  | cons a t ih =>
      by_cases hq : q a = true
      · simp [List.filter_cons, hq]
        omega
      · simp only [Bool.not_eq_true] at hq
        simp [List.filter_cons, hq]
        omega

lemma filter_matchId_length_le (l c : List ScoredTrack)
    (h : (l.map (fun st => st.track.id)).Nodup) :
    (l.filter (fun st =>
        c.any (fun cr => cr.track.id == st.track.id))).length ≤ c.length := by
  classical
  set f := l.filter (fun st => c.any (fun cr => cr.track.id == st.track.id))
    with hf
  have hsub : List.Sublist f l := List.filter_sublist l
  have hnd : (f.map (fun st => st.track.id)).Nodup :=
    (hsub.map (fun st => st.track.id)).nodup h
  have hss : ∀ a ∈ f.map (fun st => st.track.id),
      a ∈ c.map (fun cr => cr.track.id) := by
    intro a ha
    obtain ⟨st, hst, rfl⟩ := List.mem_map.1 ha
    have hp := List.of_mem_filter hst
    obtain ⟨cr, hcr, hcrid⟩ := List.any_eq_true.1 hp
    exact List.mem_map.2 ⟨cr, hcr, eq_of_beq hcrid⟩
  calc f.length
      = (f.map (fun st => st.track.id)).length := (List.length_map _ _).symm
    _ = (f.map (fun st => st.track.id)).toFinset.card :=
        (List.toFinset_card_of_nodup hnd).symm
    _ ≤ (c.map (fun cr => cr.track.id)).toFinset.card := by
        apply Finset.card_le_card
        intro a ha
        rw [List.mem_toFinset] at ha ⊢
        exact hss a ha
    _ ≤ (c.map (fun cr => cr.track.id)).length := List.toFinset_card_le _
    _ = c.length := List.length_map _ _

/-- C1, amended.  When the profile is passed explicitly, a disliked id is
absent from `getRecommendations` output provided every catalog track bearing
that id scores at most −50 (as happens whenever its tag-score sum plus
bonuses stays within 50, the spec's intended regime): such a track fails the
`> −50` content filter and the discovery pool drops all disliked ids.  (As
the counterexample shows, a disliked track scoring above −50 does appear,
and with the profile argument omitted the discovery pool's dislike filter —
which reads the raw optional argument — filters nothing.) -/
theorem getRecommendations_disliked_excluded
    (catalog : List Track) (p loaded : UserProfile) (L : Nat)
    (rand : Nat → Nat) (x : String)
    (hx : x ∈ p.dislikedSongs)
    (hscore : ∀ t ∈ catalog, t.id = x → (calculateTrackScore t p).1 ≤ -50) :
    ∀ st ∈ getRecommendations catalog (some p) loaded L rand,
      st.track.id ≠ x := by
  intro st hst hid
  simp only [getRecommendations, Option.getD_some] at hst
  have hst1 := List.take_subset _ _ hst
  rcases interleaveDiscoveries_mem hst1 with hc | hd
  · -- st came from the content slate: its score passes the > −50 filter
    have hc1 := jsSliceTo_subset _ _ hc
    have hc2 := List.mem_filter.1 hc1
    have hscoregt : (-50 : ℚ) < st.score := by
      have := hc2.2
      simpa using this
    have hmem : st ∈ catalog.map (scoreTrack p) :=
      (List.mem_insertionSort _).1 hc2.1
    obtain ⟨t, ht, hteq⟩ := List.mem_map.1 hmem
    have hts : st.score = (calculateTrackScore t p).1 := by
      rw [← hteq]
      rfl
    have htid : t.id = x := by
      rw [← hteq] at hid
      exact hid
    have hle := hscore t ht htid
    rw [hts] at hscoregt
    linarith
  · -- st is a discovery pick: the pool excludes disliked ids
    obtain ⟨st0, hst0, hmark⟩ := pickDiscoveries_mem rand _ _ _ st hd
    have h1 := List.mem_of_mem_filter hst0
    have h2 := (List.mem_filter.1 h1).2
    have hnotin : st0.track.id ∉ p.dislikedSongs := by
      simpa using h2
    have : st0.track.id = x := by
      rw [hmark] at hid
      exact hid
    rw [this] at hnotin
    exact hnotin hx

unseal Rat.mul Rat.add Rat.sub Rat.inv in
/-- Witness for C1 (amended): with no interest scores, the disliked track
scores 1 − 100 = −99 ≤ −50 and is excluded. -/
theorem getRecommendations_disliked_excluded_witness :
    ("x" ∈ profileLow.dislikedSongs) ∧
    ∀ st ∈ getRecommendations [trackX] (some profileLow) (freshProfile 0) 20
        (fun _ => 0), st.track.id ≠ "x" :=
  ⟨by decide,
   getRecommendations_disliked_excluded [trackX] profileLow (freshProfile 0)
     20 (fun _ => 0) "x" (by decide) (by decide)⟩

/-! ## C5: discovery quota -/

lemma discovery_in_output (content pool : List ScoredTrack) (cc : Int)
    (dc limit : Nat) (rand : Nat → Nat)
    (hdc : 0 < dc) (hpool : pool ≠ [])
    (hlen : content.length + dc ≤ limit) :
    ∃ st ∈ (interleaveDiscoveries content (pickDiscoveries rand 0 dc pool).1
        cc dc).take limit, st.isDiscovery = true := by
  obtain ⟨st, hstp, hdisc⟩ :=
    pickDiscoveries_exists_discovery rand dc 0 pool hdc hpool
  have hmem : st ∈ interleaveDiscoveries content
      (pickDiscoveries rand 0 dc pool).1 cc dc :=
    interleaveDiscoveries_mem_of_mem_ds hstp
  have hlen2 : (interleaveDiscoveries content
      (pickDiscoveries rand 0 dc pool).1 cc dc).length ≤ limit := by
    rw [interleaveDiscoveries_length]
    have := pickDiscoveries_length_le rand dc 0 pool
    omega
  rw [List.take_of_length_le hlen2]
  exact ⟨st, hmem, hdisc⟩

lemma discovery_in_output_slice (F pool : List ScoredTrack)
    (rand : Nat → Nat) (limit d : Nat)
    (hd : 0 < d) (hdl : d ≤ limit) (hpool : pool ≠ []) :
    ∃ st ∈ (interleaveDiscoveries (jsSliceTo F ((limit : Int) - (d : Int)))
        (pickDiscoveries rand 0 d pool).1 ((limit : Int) - (d : Int))
        d).take limit, st.isDiscovery = true := by
  apply discovery_in_output _ _ _ _ _ _ hd hpool
  have h0 : (0 : Int) ≤ (limit : Int) - (d : Int) := by omega
  have h1 := jsSliceTo_length_le F ((limit : Int) - (d : Int)) h0
  have htn : ((limit : Int) - (d : Int)).toNat = limit - d := by omega
  omega

lemma pool_length_pos (p : UserProfile) (sorted content : List ScoredTrack)
    (hnd : (sorted.map (fun st => st.track.id)).Nodup)
    (hlike : ∀ st ∈ sorted, st.track.id ∉ p.dislikedSongs)
    (hslen : 20 ≤ sorted.length) (hclen : content.length ≤ 18) :
    (sorted.filter (fun st => !p.dislikedSongs.contains st.track.id)).filter
        (fun st => !(content.any fun cr => cr.track.id == st.track.id))
      ≠ [] := by
  have hall : sorted.filter
      (fun st => !p.dislikedSongs.contains st.track.id) = sorted := by
    rw [List.filter_eq_self]
    intro st hst
    simpa using hlike st hst
  rw [hall]
  have hrem := filter_matchId_length_le sorted content hnd
  have hsplit := length_filter_not_add sorted
    (fun st => content.any fun cr => cr.track.id == st.track.id)
  rw [← List.length_pos]
  omega

lemma sorted_map_id_perm (catalog : List Track) (p : UserProfile) :
    ((List.insertionSort (fun a b : ScoredTrack => b.score ≤ a.score)
        (catalog.map (scoreTrack p))).map (fun st => st.track.id)).Perm
      (catalog.map Track.id) := by
  have h1 := (List.perm_insertionSort
    (fun a b : ScoredTrack => b.score ≤ a.score)
    (catalog.map (scoreTrack p))).map (fun st => st.track.id)
  rw [List.map_map] at h1
  exact h1

lemma sorted_ids_nodup (catalog : List Track) (p : UserProfile)
    (hids : (catalog.map Track.id).Nodup) :
    ((List.insertionSort (fun a b : ScoredTrack => b.score ≤ a.score)
        (catalog.map (scoreTrack p))).map (fun st => st.track.id)).Nodup :=
  ((sorted_map_id_perm catalog p).nodup_iff).2 hids

lemma sorted_not_disliked (catalog : List Track) (p : UserProfile)
    (hnd : ∀ t ∈ catalog, t.id ∉ p.dislikedSongs) :
    ∀ st ∈ List.insertionSort (fun a b : ScoredTrack => b.score ≤ a.score)
        (catalog.map (scoreTrack p)),
      st.track.id ∉ p.dislikedSongs := by
  intro st hst
  have hmem := (List.mem_insertionSort _).1 hst
  obtain ⟨t, ht, rfl⟩ := List.mem_map.1 hmem
  exact hnd t ht

lemma sorted_length_eq (catalog : List Track) (p : UserProfile) :
    (List.insertionSort (fun a b : ScoredTrack => b.score ≤ a.score)
        (catalog.map (scoreTrack p))).length = catalog.length := by
  rw [List.length_insertionSort, List.length_map]

unseal Rat.mul Rat.add Rat.sub Rat.inv in
lemma discoveryCount_twenty :
    max 1 ((((20 : ℕ) : ℚ) * SERENDIPITY_RATIO).floor).toNat = 2 := by decide

/-- C5.  On a catalog of at least 20 items with (per the data model) unique
ids, none of them disliked, `getRecommendations(catalog, profile, 20)`
returns at least one item marked as a discovery pick: the content slate
keeps at most 18 items, so the discovery pool retains at least two
candidates, the selection loop marks at least one, and the final truncation
to 20 (= 18 + 2) drops nothing. -/
theorem getRecommendations_discovery_quota
    (catalog : List Track) (p loaded : UserProfile) (rand : Nat → Nat)
    (hlen : 20 ≤ catalog.length)
    (hids : (catalog.map Track.id).Nodup)
    (hnd : ∀ t ∈ catalog, t.id ∉ p.dislikedSongs) :
    ∃ st ∈ getRecommendations catalog (some p) loaded 20 rand,
      st.isDiscovery = true := by
  simp only [getRecommendations, Option.getD_some]
  rw [discoveryCount_twenty]
  apply discovery_in_output_slice
  · exact Nat.zero_lt_two
  · omega
  · apply pool_length_pos p _ _ (sorted_ids_nodup catalog p hids)
      (sorted_not_disliked catalog p hnd)
    · rw [sorted_length_eq]
      exact hlen
    · have h0 : (0 : Int) ≤ ((20 : ℕ) : Int) - ((2 : ℕ) : Int) := by omega
      have h1 := jsSliceTo_length_le
        (List.filter (fun st => decide ((-50 : ℚ) < st.score))
          (List.insertionSort (fun a b : ScoredTrack => b.score ≤ a.score)
            (catalog.map (scoreTrack p))))
        (((20 : ℕ) : Int) - ((2 : ℕ) : Int)) h0
      have htn : (((20 : ℕ) : Int) - ((2 : ℕ) : Int)).toNat = 18 := by omega
      omega

/-- Witness for C5: twenty distinct tagless tracks on a fresh profile. -/
theorem getRecommendations_discovery_quota_witness :
    ∃ st ∈ getRecommendations catalog20 (some (freshProfile 0))
        (freshProfile 0) 20 (fun _ => 0), st.isDiscovery = true :=
  getRecommendations_discovery_quota catalog20 (freshProfile 0)
    (freshProfile 0) (fun _ => 0) (by decide) (by decide) (by decide)

/-! ## Additional closed witnesses -/

/-- Witness for C2: the LRU eviction property evaluated on `bigStore`. -/
theorem ensureCacheSpace_lru_witness :
    (sortByLastAccessed bigStore).Perm bigStore ∧
    (sortByLastAccessed bigStore).Pairwise
      (fun a b => a.lastAccessed ≤ b.lastAccessed) ∧
    ∃ k, ensureCacheSpace bigStore = (sortByLastAccessed bigStore).drop k ∧
      cacheSizeSum (ensureCacheSpace bigStore) ≤
        MAX_CACHE_SIZE_MB * 1024 * 1024 ∧
      (ensureCacheSpace bigStore).length ≤ MAX_CACHE_ITEMS ∧
      ∀ j < k,
        MAX_CACHE_SIZE_MB * 1024 * 1024 <
            cacheSizeSum ((sortByLastAccessed bigStore).drop j) ∨
          MAX_CACHE_ITEMS < ((sortByLastAccessed bigStore).drop j).length :=
  ensureCacheSpace_lru bigStore

/-- Witness for C4: liking then disliking `"s"` on a fresh profile. -/
theorem likeDislike_mutual_exclusion_witness :
    ("s" ∈ (recordInteraction (replay (freshProfile 0) []) "s" .like [] none
        1).likedSongs ∧
     "s" ∉ (recordInteraction (replay (freshProfile 0) []) "s" .like [] none
        1).dislikedSongs) ∧
    ("s" ∈ (recordInteraction (replay (freshProfile 0) []) "s" .dislike []
        none 1).dislikedSongs ∧
     "s" ∉ (recordInteraction (replay (freshProfile 0) []) "s" .dislike []
        none 1).likedSongs) :=
  ⟨(likeDislike_mutual_exclusion [] 0 "s" [] none 1).2.1,
   (likeDislike_mutual_exclusion [] 0 "s" [] none 1).2.2⟩

/-- One concrete interaction event, for the C7 witness. -/
def evPlayA : Ev := ⟨"a", .play, [], none, 1⟩

/-- Witness for C7: the ring-buffer law evaluated on one recorded event. -/
theorem interactionLog_ring_witness :
    (replay (freshProfile 0) [evPlayA]).interactions =
      (([evPlayA]).map evToInteraction).drop (([evPlayA]).length - 500) ∧
    (replay (freshProfile 0) [evPlayA]).interactions.length =
      min ([evPlayA]).length 500 :=
  interactionLog_ring [evPlayA] 0

end Music
